import Mathlib

/-!
A shallow embedding of the recurring-transaction detection engine and the
anomaly-detection engine of the `finance` repository
(`apps/banking/services/recurring_detector.py`,
`apps/banking/services/anomaly_detector.py`, `apps/banking/tasks.py`,
`apps/banking/models.py`), together with proofs of the spec's testable
properties about them.

Modelling conventions:
* Python `Decimal` amounts and `float` scores are embedded as exact
  rationals (`ℚ`); the algorithms only add, multiply, divide and compare
  such values, so ℚ reproduces the intended arithmetic exactly.
* `datetime.date` values are embedded as proleptic-Gregorian ordinals
  (`ℤ`, Python `date.toordinal`), so `date` subtraction and
  `timedelta(days=n)` addition become integer subtraction and addition.
* Django query results reaching a function are passed to the embedded
  function as explicit lists, filtered the way the ORM call filters them.
* Python strings are embedded as Lean `String`; `strip`/`lower`/`upper`
  are embedded over the character list (ASCII whitespace).
-/

namespace Finance

/-! ## Calendar (Python `datetime.date.toordinal`) -/

/-- Gregorian leap year test, as in Python's `calendar.isleap`. -/
def isLeap (y : ℕ) : Bool :=
  (y % 4 == 0 && y % 100 != 0) || y % 400 == 0

/-- Days in the year strictly before month `m` (1-based). -/
def daysBeforeMonth (m : ℕ) (leap : Bool) : ℕ :=
  [0, 31, 59, 90, 120, 151, 181, 212, 243, 273, 304, 334].getD (m - 1) 0
    + (if 2 < m && leap then 1 else 0)

/-- Python `date(y, m, d).toordinal()`: day count with 0001-01-01 ↦ 1. -/
def toOrdinal (y m d : ℕ) : ℤ :=
  ((365 * (y - 1) + (y - 1) / 4 - (y - 1) / 100 + (y - 1) / 400
      + daysBeforeMonth m (isLeap y) + d : ℕ) : ℤ)

/-! ## Python string helpers -/

/-- Python `str.strip()` restricted to ASCII whitespace. -/
def pyStrip (s : String) : String :=
  ⟨((s.data.dropWhile Char.isWhitespace).reverse.dropWhile Char.isWhitespace).reverse⟩

/-- Python `str.lower()` (ASCII case mapping). -/
def pyLower (s : String) : String := ⟨s.data.map Char.toLower⟩

/-- Python `str.upper()` (ASCII case mapping). -/
def pyUpper (s : String) : String := ⟨s.data.map Char.toUpper⟩

/-- Python `abs` on a rational. -/
def pyAbs (q : ℚ) : ℚ := if q < 0 then -q else q

/-- Python `min` of two rationals. -/
def pyMin (a b : ℚ) : ℚ := if a ≤ b then a else b

/-! ## Data model -/

/-- The five detector frequencies (`FREQUENCY_DAYS` keys). -/
inductive Frequency where
  | weekly
  | biweekly
  | monthly
  | quarterly
  | yearly
deriving DecidableEq

/-- A transaction row as fetched by `detect()`'s `values(...)` query:
already filtered to one account, `type in {expense, income}` and the
lookback window, ordered by the caller. -/
structure Tx where
  id : ℕ
  date : ℤ
  amount : ℚ
  description : String
  partner_name : String
  partner_iban : String
  payment_method : String
  merchant_name : String
  card_brand : String
deriving DecidableEq

/-- The `RecurringPattern` dataclass. -/
structure RecurringPattern where
  description : String
  amount : ℚ
  frequency : Frequency
  days_interval : ℤ
  next_expected_date : ℤ
  last_occurrence_date : ℤ
  occurrence_count : ℕ
  confidence_score : ℚ
  transaction_ids : List ℕ
  similar_descriptions : List String
deriving DecidableEq

/-! ## Detector configuration constants -/

/-- `FREQUENCY_DAYS`, in the dict's insertion order (the order
`_find_patterns_in_group` iterates the candidate frequencies). -/
def FREQUENCY_DAYS : List (Frequency × ℤ) :=
  [(.weekly, 7), (.biweekly, 14), (.monthly, 30), (.quarterly, 90), (.yearly, 365)]

/-- `FREQUENCY_PRIORITY`. -/
def FREQUENCY_PRIORITY : Frequency → ℚ
  | .weekly => 5
  | .biweekly => 4
  | .monthly => 3
  | .quarterly => 2
  | .yearly => 1

/-- `MIN_OCCURRENCES`. -/
def MIN_OCCURRENCES : Frequency → ℕ
  | .weekly => 3
  | .biweekly => 3
  | .monthly => 2
  | .quarterly => 2
  | .yearly => 2

/-- `pass_multipliers.get(confidence_pass, 0.65)`:
`{1: 1.0, 2: 0.85, 3: 0.65}` with default `0.65`. -/
def passMultiplier (confidencePass : ℕ) : ℚ :=
  if confidencePass = 1 then 1
  else if confidencePass = 2 then 17/20
  else 13/20

/-! ## `_detect_pattern` -/

/-- `sorted(transactions, key=lambda t: t['date'])`. -/
def sortByDate (txs : List Tx) : List Tx :=
  List.insertionSort (fun a b => a.date ≤ b.date) txs

/-- The consecutive day intervals
`(transactions[i+1]['date'] - transactions[i]['date']).days`. -/
def intervalsOf (txs : List Tx) : List ℤ :=
  (txs.zip txs.tail).map (fun p => p.2.date - p.1.date)

/-- The `amounts` list: the loop appends `transactions[i]['amount']` for
`i < len-1` and then `transactions[-1]['amount']`, i.e. every amount in
order. -/
def amountsOf (txs : List Tx) : List ℚ := txs.map (fun t => t.amount)

/-- Intervals within 30% tolerance of the expected day count:
`abs(i - expected_days) <= expected_days * 0.3`. -/
def validIntervalsOf (txs : List Tx) (expectedDays : ℤ) : List ℤ :=
  (intervalsOf txs).filter
    (fun i => pyAbs ((i : ℚ) - (expectedDays : ℚ)) ≤ (expectedDays : ℚ) * (3/10))

/-- `avg_amount = sum(amounts) / len(amounts)`. -/
def avgAmountOf (txs : List Tx) : ℚ :=
  (amountsOf txs).sum / ((amountsOf txs).length : ℚ)

/-- `amount_variance = [a for a in amounts]` — the comprehension has no
condition, so it is a copy of `amounts`. -/
def amountVarianceOf (txs : List Tx) : List ℚ := amountsOf txs

/-- `interval_consistency = len(valid_intervals) / len(intervals) if intervals else 0`. -/
def intervalConsistency (txs : List Tx) (expectedDays : ℤ) : ℚ :=
  if intervalsOf txs = [] then 0
  else ((validIntervalsOf txs expectedDays).length : ℚ) / ((intervalsOf txs).length : ℚ)

/-- `amount_consistency = len(amount_variance) / len(amounts) if amounts else 0`. -/
def amountConsistency (txs : List Tx) : ℚ :=
  if amountsOf txs = [] then 0
  else ((amountVarianceOf txs).length : ℚ) / ((amountsOf txs).length : ℚ)

/-- `occurrence_ratio = len(transactions) / MIN_OCCURRENCES[frequency]`. -/
def occurRatioOf (txs : List Tx) (freq : Frequency) : ℚ :=
  (txs.length : ℚ) / ((MIN_OCCURRENCES freq : ℕ) : ℚ)

/-- `base_confidence = interval_consistency*0.5 + amount_consistency*0.3
    + min(occurrence_ratio, 1.0)*0.2`. -/
def baseConfidence (txs : List Tx) (freq : Frequency) (expectedDays : ℤ) : ℚ :=
  intervalConsistency txs expectedDays * (1/2)
    + amountConsistency txs * (3/10)
    + pyMin (occurRatioOf txs freq) 1 * (1/5)

/-- `confidence = base_confidence * multiplier`. -/
def finalConfidence (txs : List Tx) (freq : Frequency) (expectedDays : ℤ)
    (confidencePass : ℕ) : ℚ :=
  baseConfidence txs freq expectedDays * passMultiplier confidencePass

/-- `_detect_pattern(description, transactions, frequency, expected_days,
confidence_pass)`. The caller passes `transactions` already sorted by
date. The final `match` on `getLast?` reflects `transactions[-1]`, which
the `MIN_OCCURRENCES` guard (≥ 2) keeps in bounds. -/
def detectPattern (desc : String) (txs : List Tx) (freq : Frequency)
    (expectedDays : ℤ) (confidencePass : ℕ) : Option RecurringPattern :=
  if txs.length < MIN_OCCURRENCES freq then none
  else if (validIntervalsOf txs expectedDays).length < MIN_OCCURRENCES freq - 1 then none
  else if avgAmountOf txs = 0 then none
  else if ((amountVarianceOf txs).length : ℚ) < ((amountsOf txs).length : ℚ) * (7/10) then none
  else if finalConfidence txs freq expectedDays confidencePass < 3/5 then none
  else
    match txs.getLast? with
    | none => none
    | some lastTx =>
      some { description := desc
             amount := avgAmountOf txs
             frequency := freq
             days_interval := expectedDays
             next_expected_date := lastTx.date + expectedDays
             last_occurrence_date := lastTx.date
             occurrence_count := txs.length
             confidence_score := finalConfidence txs freq expectedDays confidencePass
             transaction_ids := txs.map (fun t => t.id)
             similar_descriptions := (txs.map (fun t => t.description)).dedup }

/-! ## `_score_pattern` and `_find_patterns_in_group` -/

/-- `_score_pattern(pattern, frequency, expected_days)`:
`confidence*0.5 + (priority/5)*0.2 + min(occ/(min_occ+1), 1)*0.2 + 0.8*0.1`. -/
def scorePattern (p : RecurringPattern) (freq : Frequency) : ℚ :=
  p.confidence_score * (1/2)
    + (FREQUENCY_PRIORITY freq / 5) * (1/5)
    + pyMin ((p.occurrence_count : ℚ) / ((MIN_OCCURRENCES freq : ℕ) + 1 : ℚ)) 1 * (1/5)
    + (4/5) * (1/10)

/-- One iteration of the best-pattern loop in `_find_patterns_in_group`:
keep the incumbent unless the new frequency detects a pattern with a
strictly larger score (`if score > best_score`). -/
def bestStep (desc : String) (sorted : List Tx) (confidencePass : ℕ)
    (acc : Option RecurringPattern × ℚ) (fd : Frequency × ℤ) :
    Option RecurringPattern × ℚ :=
  match detectPattern desc sorted fd.1 fd.2 confidencePass with
  | none => acc
  | some p =>
    if acc.2 < scorePattern p fd.1 then (some p, scorePattern p fd.1) else acc

/-- `_find_patterns_in_group(description, transactions, confidence_pass)`:
sort the group by date, try every frequency, and return the single best
pattern (`best_score` starts at `-1`, `best_pattern` at `None`). -/
def findPatternsInGroup (desc : String) (txs : List Tx) (confidencePass : ℕ) :
    List RecurringPattern :=
  match (FREQUENCY_DAYS.foldl (bestStep desc (sortByDate txs) confidencePass)
      ((none : Option RecurringPattern), (-1 : ℚ))).1 with
  | some p => [p]
  | none => []

/-! ## Grouping pass 1: `_group_by_partner_info` -/

/-- First-occurrence deduplication, preserving insertion order (the key
order of a Python `defaultdict`). -/
def firstDedup {α : Type} [DecidableEq α] (seen : List α) : List α → List α
  | [] => []
  | k :: rest =>
    if k ∈ seen then firstDedup seen rest else k :: firstDedup (k :: seen) rest

/-- The pass-1 group key
`f"partner:{partner_iban}:{partner_name}:{payment_method}"` built from the
stripped/cased fields. -/
def partnerKey (t : Tx) : String :=
  "partner:" ++ pyUpper (pyStrip t.partner_iban) ++ ":"
    ++ pyLower (pyStrip t.partner_name) ++ ":"
    ++ pyLower (pyStrip t.payment_method)

/-- `if not (partner_iban and partner_name): continue` on the
stripped/cased values. -/
def hasPartnerInfo (t : Tx) : Bool :=
  pyUpper (pyStrip t.partner_iban) != "" && pyLower (pyStrip t.partner_name) != ""

/-- `_group_by_partner_info`: bucket the eligible transactions by
`partnerKey` (keys in first-seen order, members in input order) and keep
only groups with at least 2 occurrences. Every returned group carries
`confidence_pass = 1`, which the caller forwards to
`_find_patterns_in_group`. -/
def groupByPartnerInfo (txs : List Tx) : List (String × List Tx) :=
  let eligible := txs.filter hasPartnerInfo
  ((firstDedup [] (eligible.map partnerKey)).map
      (fun k => (k, eligible.filter (fun t => partnerKey t == k)))).filter
    (fun g => 2 ≤ g.2.length)

/-! ## Concrete scenario for C1 (spec §8, last bullet) -/

/-- A partner-matched transaction of amount 50.00, as in the C1 scenario. -/
def c1tx (i : ℕ) (d : ℤ) : Tx :=
  { id := i
    date := d
    amount := 50
    description := "ACME Insurance"
    partner_name := "ACME Insurance"
    partner_iban := "AT611904300234573201"
    payment_method := "SEPA"
    merchant_name := ""
    card_brand := "" }

/-- Four partner-matched transactions on 2024-01-01, 2024-02-01,
2024-03-03 and 2024-04-01. -/
def c1txs : List Tx :=
  [c1tx 1 (toOrdinal 2024 1 1), c1tx 2 (toOrdinal 2024 2 1),
   c1tx 3 (toOrdinal 2024 3 3), c1tx 4 (toOrdinal 2024 4 1)]

/-- The pass-1 group key of the C1 transactions. -/
def c1key : String := "partner:AT611904300234573201:acme insurance:sepa"

/-- The pattern the detector emits for the C1 group. -/
def c1pattern : RecurringPattern :=
  { description := c1key
    amount := 50
    frequency := .monthly
    days_interval := 30
    next_expected_date := toOrdinal 2024 5 1
    last_occurrence_date := toOrdinal 2024 4 1
    occurrence_count := 4
    confidence_score := 1
    transaction_ids := [1, 2, 3, 4]
    similar_descriptions := ["ACME Insurance"] }

/-! ## Persistence: `RecurringTransaction` upsert
(`detect_recurring_transactions_task`, `RecurringTransaction.Meta`) -/

/-- A persisted `RecurringTransaction` row, restricted to the fields the
upsert in `detect_recurring_transactions_task` touches. The upsert key is
`(account, description, frequency)` (the model's `unique_together`). -/
structure RecRow where
  account : ℕ
  description : String
  frequency : Frequency
  amount : ℚ
  next_expected_date : ℤ
  last_occurrence_date : ℤ
  occurrence_count : ℕ
  confidence_score : ℚ
  is_active : Bool
deriving DecidableEq

/-- Does row `r` carry the upsert key `(account, p.description, p.frequency)`? -/
def rowMatches (account : ℕ) (p : RecurringPattern) (r : RecRow) : Bool :=
  r.account == account && r.description == p.description && r.frequency == p.frequency

/-- The row written for pattern `p` (the `defaults={...}` of the upsert). -/
def rowFromPattern (account : ℕ) (p : RecurringPattern) : RecRow :=
  { account := account
    description := p.description
    frequency := p.frequency
    amount := p.amount
    next_expected_date := p.next_expected_date
    last_occurrence_date := p.last_occurrence_date
    occurrence_count := p.occurrence_count
    confidence_score := p.confidence_score
    is_active := true }

/-- Django `RecurringTransaction.objects.update_or_create(account=…,
description=…, frequency=…, defaults=…)`: if a row with the key exists it
is updated in place (the key fields are not part of `defaults`), otherwise
a new row is appended. The `Bool` is the `created` flag. -/
def update_or_create (store : List RecRow) (account : ℕ) (p : RecurringPattern) :
    List RecRow × Bool :=
  if store.any (rowMatches account p) then
    (store.map (fun r => if rowMatches account p r then rowFromPattern account p else r),
     false)
  else
    (store ++ [rowFromPattern account p], true)

/-- The task's persistence loop: upsert every detected pattern in order. -/
def upsertAll (store : List RecRow) (account : ℕ) (ps : List RecurringPattern) :
    List RecRow :=
  ps.foldl (fun s p => (update_or_create s account p).1) store

/-- Number of persisted rows carrying the key `(account, p.description,
p.frequency)`. -/
def countKey (store : List RecRow) (account : ℕ) (p : RecurringPattern) : ℕ :=
  (store.filter (rowMatches account p)).length

/-! ## Anomaly detection (`anomaly_detector.py`, `models.py`) -/

/-- `AnomalySeverity`. -/
inductive Severity where
  | info
  | warning
  | critical
deriving DecidableEq

/-- `AnomalyType` (the nine detector types). -/
inductive AnomalyType where
  | unusual_amount
  | unusual_timing
  | duplicate_pattern
  | missing_recurring
  | changed_recurring
  | spending_spike
  | new_merchant
  | account_inactive
  | multiple_failures
deriving DecidableEq

/-- `UserAnomalyPreferences.SENSITIVITY_*` choices. -/
inductive Sensitivity where
  | low
  | medium
  | high
deriving DecidableEq

/-- `UserAnomalyPreferences.get_minimum_score_for_severity`:
low → 90, high → 50, otherwise (medium) → 70. -/
def get_minimum_score_for_severity (s : Sensitivity) : ℚ :=
  if s = .low then 90
  else if s = .high then 50
  else 70

/-- `statistics.mean`. -/
def listMean (l : List ℚ) : ℚ := l.sum / (l.length : ℚ)

/-- The square of `statistics.stdev` (sample variance, divisor `n - 1`).
`stdev == 0` holds exactly when this is `0`, and every comparison the code
makes against `stdev` or the Z-score is restated on squares below, so the
irrational square root never needs to be taken. -/
def sampleVariance (l : List ℚ) : ℚ :=
  (l.map (fun a => (a - listMean l) ^ 2)).sum / ((l.length : ℚ) - 1)

/-- The squared Z-score `((current - mean) / stdev)²` of the new amount
against the historical amounts. -/
def zsqOf (hist : List ℚ) (current : ℚ) : ℚ :=
  (current - listMean hist) ^ 2 / sampleVariance hist

/-- Result of `_detect_unusual_amount`, keeping what the emitted `Anomaly`
carries: the `stdev == 0` branch emits a fixed rational score, the
`stdev > 0` branch a score `min(100, 50 + 10·z)` that is irrational in
general, so the squared Z-score is carried instead. -/
inductive UnusualOut where
  | constantDev (score : ℚ) (sev : Severity)
  | outlier (zsq : ℚ) (sev : Severity)
deriving DecidableEq

/-- `_detect_unusual_amount`, given the historical same-group amounts (the
180-day lookback query, at least 2 rows or the detector returns `None`),
the new transaction's amount, and the preference-derived minimum score.

The code's comparisons involving `z = |current - mean| / stdev ≥ 0` are
encoded square-free:
* `z_score > 2.0`  ↔  `zsq > 4`;
* `min(100, 50 + z*10) < min_score`  ↔
  `100 < min_score ∨ (50 < min_score ∧ 100·zsq < (min_score - 50)²)`;
* `confidence < 90` (severity WARNING vs CRITICAL)  ↔  `zsq < 16`. -/
def detectUnusualAmount (histAmounts : List ℚ) (current : ℚ) (minScore : ℚ) :
    Option UnusualOut :=
  if histAmounts.length < 2 then none
  else if sampleVariance histAmounts = 0 then
    if pyAbs (listMean histAmounts) * (1/2) < pyAbs (current - listMean histAmounts) then
      some (.constantDev 60 .warning)
    else none
  else if 4 < zsqOf histAmounts current then
    if 100 < minScore ∨ (50 < minScore ∧ 100 * zsqOf histAmounts current < (minScore - 50) ^ 2) then
      none
    else
      some (.outlier (zsqOf histAmounts current)
        (if zsqOf histAmounts current < 16 then .warning else .critical))
  else none

/-- The distinct months of the historical window, in first-seen order (the
grouping the ORM's `values('date__month')` performs). -/
def monthsOf (histMonths : List ℕ) : List ℕ := firstDedup [] histMonths

/-- Per-month transaction counts (`annotate(total=Count('amount'))`). -/
def monthlyBuckets (histMonths : List ℕ) : List ℕ :=
  (monthsOf histMonths).map (fun m => histMonths.count m)

/-- `avg_monthly = sum(h['total'] for h in historical) / len(historical)`:
the mean per-month count over the months that have transactions. -/
def avgMonthlyOf (histMonths : List ℕ) : ℚ :=
  ((monthlyBuckets histMonths).sum : ℚ) / ((monthlyBuckets histMonths).length : ℚ)

/-- `detect_spending_spike`, given the month tags of the historical
expense transactions of the category (window `[now - 180d, month_start)`)
and the current month's expense-transaction count for the category.
Triggers on the transaction count, not the summed amounts. -/
def detect_spending_spike (histMonths : List ℕ) (currentCount : ℕ)
    (spikeMultiplier : ℚ) : Option (ℚ × Severity) :=
  if monthlyBuckets histMonths = [] then none
  else if avgMonthlyOf histMonths * spikeMultiplier < (currentCount : ℚ) then
    some (pyMin 100
      (50 + (if 0 < avgMonthlyOf histMonths
             then (currentCount : ℚ) / avgMonthlyOf histMonths else 0) * 20),
      .warning)
  else none

/-! ## `create_anomaly_if_new` -/

/-- An anomaly as passed to `create_anomaly_if_new`, before it is saved
(`created_at` is set by the database on save, `auto_now_add`). Timestamps
are rationals measured in hours. -/
structure PendingAnomaly where
  user : ℕ
  account : ℕ
  anomaly_type : AnomalyType
  transaction_id : Option ℕ
  anomaly_score : ℚ
deriving DecidableEq

/-- A persisted anomaly row. -/
structure StoredAnomaly where
  user : ℕ
  account : ℕ
  anomaly_type : AnomalyType
  transaction_id : Option ℕ
  anomaly_score : ℚ
  created_at : ℚ
deriving DecidableEq

/-- Saving a pending anomaly at time `now`. -/
def saveAnomaly (a : PendingAnomaly) (now : ℚ) : StoredAnomaly :=
  { user := a.user
    account := a.account
    anomaly_type := a.anomaly_type
    transaction_id := a.transaction_id
    anomaly_score := a.anomaly_score
    created_at := now }

/-- `create_anomaly_if_new(anomaly)`: if any stored anomaly of the same
`(user, account, anomaly_type)` was created within the last 24 hours
(`created_at >= now - timedelta(hours=24)`), return `None` and persist
nothing; otherwise save and return the new anomaly. -/
def create_anomaly_if_new (store : List StoredAnomaly) (now : ℚ)
    (a : PendingAnomaly) : Option StoredAnomaly × List StoredAnomaly :=
  match store.find? (fun e =>
      e.user == a.user && e.account == a.account
        && e.anomaly_type == a.anomaly_type && decide (now - 24 ≤ e.created_at)) with
  | some _ => (none, store)
  | none => (some (saveAnomaly a now), saveAnomaly a now :: store)

/-! ## Concrete evaluation lemmas for the C1 scenario -/

/-- The C1 transactions with their ordinals evaluated
(2024-01-01 ↦ 738886, 2024-02-01 ↦ 738917, 2024-03-03 ↦ 738948,
2024-04-01 ↦ 738977). -/
def c1sorted : List Tx :=
  [c1tx 1 738886, c1tx 2 738917, c1tx 3 738948, c1tx 4 738977]

lemma c1txs_eq : c1txs = c1sorted := by decide

lemma c1_sortByDate : sortByDate c1txs = c1sorted := by decide

lemma c1_partnerKey : partnerKey (c1tx 1 738886) = c1key := by decide

lemma c1_group : groupByPartnerInfo c1txs = [(c1key, c1txs)] := by decide

lemma c1_detect_weekly : detectPattern c1key c1sorted .weekly 7 1 = none := by
  norm_num [detectPattern, MIN_OCCURRENCES, validIntervalsOf, intervalsOf, c1sorted, c1tx,
    pyAbs, List.filter]

lemma c1_detect_biweekly : detectPattern c1key c1sorted .biweekly 14 1 = none := by
  norm_num [detectPattern, MIN_OCCURRENCES, validIntervalsOf, intervalsOf, c1sorted, c1tx,
    pyAbs, List.filter]

lemma c1_detect_monthly : detectPattern c1key c1sorted .monthly 30 1 = some c1pattern := by
  norm_num +decide [detectPattern, MIN_OCCURRENCES, validIntervalsOf, intervalsOf, amountsOf,
    avgAmountOf, amountVarianceOf, finalConfidence, baseConfidence, intervalConsistency,
    amountConsistency, occurRatioOf, passMultiplier, pyAbs, pyMin, c1sorted, c1tx, c1pattern,
    c1key, List.filter, List.dedup, List.pwFilter, List.getLast?, toOrdinal, isLeap,
    daysBeforeMonth]

lemma c1_detect_quarterly : detectPattern c1key c1sorted .quarterly 90 1 = none := by
  norm_num [detectPattern, MIN_OCCURRENCES, validIntervalsOf, intervalsOf, c1sorted, c1tx,
    pyAbs, List.filter]

lemma c1_detect_yearly : detectPattern c1key c1sorted .yearly 365 1 = none := by
  norm_num [detectPattern, MIN_OCCURRENCES, validIntervalsOf, intervalsOf, c1sorted, c1tx,
    pyAbs, List.filter]

lemma c1_find : findPatternsInGroup c1key c1txs 1 = [c1pattern] := by
  simp only [findPatternsInGroup, c1_sortByDate, FREQUENCY_DAYS, List.foldl, bestStep,
    c1_detect_weekly, c1_detect_biweekly, c1_detect_monthly, c1_detect_quarterly,
    c1_detect_yearly]
  norm_num [scorePattern, FREQUENCY_PRIORITY, MIN_OCCURRENCES, pyMin, c1pattern]

/-- C1: on an account whose transactions are exactly four partner-matched
transactions of amount 50.00 dated 2024-01-01, 2024-02-01, 2024-03-03 and
2024-04-01, grouping pass 1 forms a single group of all four, and pattern
detection on that group reports one pattern with frequency monthly,
occurrence_count 4, next_expected_date 2024-05-01 (the last occurrence
plus 30 days) and confidence_score ≥ 0.85. -/
theorem c1_monthly_partner_scenario :
    groupByPartnerInfo c1txs = [(c1key, c1txs)]
      ∧ findPatternsInGroup c1key c1txs 1 = [c1pattern]
      ∧ c1pattern.frequency = .monthly
      ∧ c1pattern.occurrence_count = 4
      ∧ c1pattern.next_expected_date = toOrdinal 2024 5 1
      ∧ c1pattern.next_expected_date = c1pattern.last_occurrence_date + 30
      ∧ (17/20 : ℚ) ≤ c1pattern.confidence_score := by
  refine ⟨c1_group, c1_find, rfl, rfl, by decide, by decide, ?_⟩
  norm_num [c1pattern]

/-! ## Bounds on the confidence computation -/

lemma pyMin_le_right (a b : ℚ) : pyMin a b ≤ b := by
  unfold pyMin; split <;> simp_all

lemma pyMin_nonneg {a b : ℚ} (ha : 0 ≤ a) (hb : 0 ≤ b) : 0 ≤ pyMin a b := by
  unfold pyMin; split <;> assumption

lemma intervalConsistency_nonneg (txs : List Tx) (ed : ℤ) :
    0 ≤ intervalConsistency txs ed := by
  unfold intervalConsistency
  split
  · exact le_refl 0
  · positivity

lemma intervalConsistency_le_one (txs : List Tx) (ed : ℤ) :
    intervalConsistency txs ed ≤ 1 := by
  unfold intervalConsistency
  split
  · norm_num
  · rename_i hne
    have hpos : 0 < (intervalsOf txs).length := List.length_pos.mpr hne
    rw [div_le_one (by exact_mod_cast hpos)]
    exact_mod_cast List.length_filter_le _ _

lemma amountConsistency_nonneg (txs : List Tx) : 0 ≤ amountConsistency txs := by
  unfold amountConsistency
  split
  · exact le_refl 0
  · positivity

lemma amountConsistency_le_one (txs : List Tx) : amountConsistency txs ≤ 1 := by
  unfold amountConsistency amountVarianceOf
  split
  · norm_num
  · rename_i hne
    have hpos : 0 < (amountsOf txs).length := List.length_pos.mpr hne
    rw [div_self (by exact_mod_cast hpos.ne')]

lemma occurRatioOf_nonneg (txs : List Tx) (freq : Frequency) :
    0 ≤ occurRatioOf txs freq := by
  unfold occurRatioOf; positivity

lemma baseConfidence_nonneg (txs : List Tx) (freq : Frequency) (ed : ℤ) :
    0 ≤ baseConfidence txs freq ed := by
  unfold baseConfidence
  have h1 := intervalConsistency_nonneg txs ed
  have h2 := amountConsistency_nonneg txs
  have h3 := pyMin_nonneg (occurRatioOf_nonneg txs freq) (by norm_num : (0:ℚ) ≤ 1)
  positivity

lemma baseConfidence_le_one (txs : List Tx) (freq : Frequency) (ed : ℤ) :
    baseConfidence txs freq ed ≤ 1 := by
  unfold baseConfidence
  have h1 := intervalConsistency_le_one txs ed
  have h2 := amountConsistency_le_one txs
  have h3 := pyMin_le_right (occurRatioOf txs freq) 1
  nlinarith [intervalConsistency_nonneg txs ed, amountConsistency_nonneg txs]

lemma passMultiplier_pos (cp : ℕ) : 0 < passMultiplier cp := by
  unfold passMultiplier; split <;> norm_num; split <;> norm_num

lemma passMultiplier_le_one (cp : ℕ) : passMultiplier cp ≤ 1 := by
  unfold passMultiplier; split <;> norm_num; split <;> norm_num

lemma finalConfidence_nonneg (txs : List Tx) (freq : Frequency) (ed : ℤ) (cp : ℕ) :
    0 ≤ finalConfidence txs freq ed cp :=
  mul_nonneg (baseConfidence_nonneg txs freq ed) (passMultiplier_pos cp).le

lemma finalConfidence_le_one (txs : List Tx) (freq : Frequency) (ed : ℤ) (cp : ℕ) :
    finalConfidence txs freq ed cp ≤ 1 :=
  mul_le_one₀ (baseConfidence_le_one txs freq ed) (passMultiplier_pos cp).le
    (passMultiplier_le_one cp)

/-- Inversion: everything `_detect_pattern` guarantees about an emitted
pattern. -/
lemma detectPattern_inv {desc : String} {txs : List Tx} {freq : Frequency}
    {ed : ℤ} {cp : ℕ} {p : RecurringPattern}
    (h : detectPattern desc txs freq ed cp = some p) :
    p.frequency = freq
      ∧ p.days_interval = ed
      ∧ p.confidence_score = finalConfidence txs freq ed cp
      ∧ ¬ finalConfidence txs freq ed cp < 3/5
      ∧ p.next_expected_date = p.last_occurrence_date + p.days_interval
      ∧ p.occurrence_count = txs.length := by
  unfold detectPattern at h
  split_ifs at h with h1 h2 h3 h4 h5
  cases hl : txs.getLast? with
  | none => rw [hl] at h; exact Option.noConfusion h
  | some lastTx =>
    rw [hl] at h
    have hp := (Option.some.injEq _ _).mp h
    subst hp
    exact ⟨rfl, rfl, rfl, h5, rfl, rfl⟩

/-- C2: every pattern `_detect_pattern` emits — whatever the group, the
frequency and the confidence pass — has `confidence_score ∈ [0.6, 1]` and
`next_expected_date = last_occurrence_date + days_interval`. -/
theorem c2_emitted_confidence_band (desc : String) (txs : List Tx) (freq : Frequency)
    (ed : ℤ) (cp : ℕ) (p : RecurringPattern)
    (h : detectPattern desc txs freq ed cp = some p) :
    (3/5 : ℚ) ≤ p.confidence_score ∧ p.confidence_score ≤ 1
      ∧ p.next_expected_date = p.last_occurrence_date + p.days_interval := by
  obtain ⟨-, -, hconf, hge, hnext, -⟩ := detectPattern_inv h
  refine ⟨?_, ?_, hnext⟩
  · rw [hconf]; exact le_of_not_lt hge
  · rw [hconf]; exact finalConfidence_le_one txs freq ed cp

theorem c2_emitted_confidence_band_witness :
    (3/5 : ℚ) ≤ c1pattern.confidence_score ∧ c1pattern.confidence_score ≤ 1
      ∧ c1pattern.next_expected_date
          = c1pattern.last_occurrence_date + c1pattern.days_interval :=
  c2_emitted_confidence_band c1key c1sorted .monthly 30 1 c1pattern c1_detect_monthly

/-- C4: for the same group and candidate frequency, the final confidence
of a Pass-1 (partner) group is at least that of a Pass-2 (merchant) group,
which is at least that of a Pass-3 (description) group: the multipliers
are 1.0, 0.85 and 0.65 and the base confidence is nonnegative. -/
theorem c4_pass_multiplier_monotone (txs : List Tx) (freq : Frequency) (ed : ℤ) :
    finalConfidence txs freq ed 3 ≤ finalConfidence txs freq ed 2
      ∧ finalConfidence txs freq ed 2 ≤ finalConfidence txs freq ed 1
      ∧ passMultiplier 1 = 1 ∧ passMultiplier 2 = 17/20 ∧ passMultiplier 3 = 13/20 := by
  have hb := baseConfidence_nonneg txs freq ed
  unfold finalConfidence passMultiplier
  norm_num
  constructor <;> nlinarith

/-- C8: whenever the group is smaller than the frequency's minimum
occurrence count (weekly 3, bi-weekly 3, monthly 2, quarterly 2,
yearly 2), `_detect_pattern` returns no pattern for that frequency. -/
theorem c8_min_occurrences_guard (desc : String) (txs : List Tx) (freq : Frequency)
    (ed : ℤ) (cp : ℕ) (h : txs.length < MIN_OCCURRENCES freq) :
    detectPattern desc txs freq ed cp = none
      ∧ MIN_OCCURRENCES .weekly = 3 ∧ MIN_OCCURRENCES .biweekly = 3
      ∧ MIN_OCCURRENCES .monthly = 2 ∧ MIN_OCCURRENCES .quarterly = 2
      ∧ MIN_OCCURRENCES .yearly = 2 := by
  refine ⟨?_, rfl, rfl, rfl, rfl, rfl⟩
  unfold detectPattern
  rw [if_pos h]

theorem c8_min_occurrences_guard_witness :
    detectPattern c1key [c1tx 1 738886] .monthly 30 1 = none :=
  (c8_min_occurrences_guard c1key [c1tx 1 738886] .monthly 30 1 (by decide)).1

/-! ## The best-pattern fold of `_find_patterns_in_group` (C3) -/

lemma bestStep_none {desc : String} {s : List Tx} {cp : ℕ}
    {fd : Frequency × ℤ} (acc : Option RecurringPattern × ℚ)
    (h : detectPattern desc s fd.1 fd.2 cp = none) :
    bestStep desc s cp acc fd = acc := by
  unfold bestStep; rw [h]

lemma bestStep_some {desc : String} {s : List Tx} {cp : ℕ}
    {fd : Frequency × ℤ} {q : RecurringPattern} (acc : Option RecurringPattern × ℚ)
    (h : detectPattern desc s fd.1 fd.2 cp = some q) :
    bestStep desc s cp acc fd
      = if acc.2 < scorePattern q fd.1 then (some q, scorePattern q fd.1) else acc := by
  unfold bestStep; rw [h]

lemma bestStep_snd_le (desc : String) (s : List Tx) (cp : ℕ)
    (acc : Option RecurringPattern × ℚ) (fd : Frequency × ℤ) :
    acc.2 ≤ (bestStep desc s cp acc fd).2 := by
  cases hdet : detectPattern desc s fd.1 fd.2 cp with
  | none => rw [bestStep_none acc hdet]
  | some p =>
    rw [bestStep_some acc hdet]
    split
    · rename_i hlt; exact le_of_lt hlt
    · exact le_refl _

lemma bestFold_snd_le (desc : String) (s : List Tx) (cp : ℕ) :
    ∀ (L : List (Frequency × ℤ)) (acc : Option RecurringPattern × ℚ),
      acc.2 ≤ (L.foldl (bestStep desc s cp) acc).2 := by
  intro L
  induction L with
  | nil => intro acc; exact le_refl _
  | cons fd rest ih =>
    intro acc
    exact le_trans (bestStep_snd_le desc s cp acc fd) (ih _)

lemma bestFold_ge_detected (desc : String) (s : List Tx) (cp : ℕ) :
    ∀ (L : List (Frequency × ℤ)) (acc : Option RecurringPattern × ℚ)
      (fd : Frequency × ℤ), fd ∈ L → ∀ q : RecurringPattern,
      detectPattern desc s fd.1 fd.2 cp = some q →
      scorePattern q fd.1 ≤ (L.foldl (bestStep desc s cp) acc).2 := by
  intro L
  induction L with
  | nil => intro acc fd hfd; exact absurd hfd (List.not_mem_nil fd)
  | cons fd0 rest ih =>
    intro acc fd hfd q hq
    rcases List.mem_cons.mp hfd with heq | hmem
    · subst heq
      refine le_trans ?_ (bestFold_snd_le desc s cp rest _)
      show scorePattern q fd.1 ≤ (bestStep desc s cp acc fd).2
      rw [bestStep_some acc hq]
      split
      · exact le_refl _
      · rename_i hnlt; exact le_of_not_lt hnlt
    · exact ih _ fd hmem q hq

lemma bestFold_inv (desc : String) (s : List Tx) (cp : ℕ) :
    ∀ (L : List (Frequency × ℤ)) (acc : Option RecurringPattern × ℚ),
      (∀ p0, acc.1 = some p0 → acc.2 = scorePattern p0 p0.frequency) →
      ∀ p, (L.foldl (bestStep desc s cp) acc).1 = some p →
        (L.foldl (bestStep desc s cp) acc).2 = scorePattern p p.frequency := by
  intro L
  induction L with
  | nil => intro acc hacc p hp; exact hacc p hp
  | cons fd rest ih =>
    intro acc hacc p hp
    refine ih _ ?_ p hp
    intro p0 hp0
    cases hdet : detectPattern desc s fd.1 fd.2 cp with
    | none =>
      rw [bestStep_none acc hdet] at hp0 ⊢
      exact hacc p0 hp0
    | some q =>
      rw [bestStep_some acc hdet] at hp0 ⊢
      split at hp0 <;> rename_i hcond
      · simp only at hp0
        have hq := (Option.some.injEq _ _).mp hp0
        subst hq
        rw [if_pos hcond]
        rw [(detectPattern_inv hdet).1]
      · rw [if_neg hcond]
        exact hacc p0 hp0

/-- C3: for one candidate group, `_find_patterns_in_group` returns at most
one pattern, and when it returns one, its composite score is at least the
composite score of every frequency's candidate pattern for the group — so
two different frequencies are never reported for the same group. -/
theorem c3_single_best_frequency (desc : String) (txs : List Tx) (cp : ℕ) :
    (findPatternsInGroup desc txs cp).length ≤ 1
      ∧ ∀ p, p ∈ findPatternsInGroup desc txs cp →
          ∀ fd, fd ∈ FREQUENCY_DAYS → ∀ q : RecurringPattern,
            detectPattern desc (sortByDate txs) fd.1 fd.2 cp = some q →
            scorePattern q fd.1 ≤ scorePattern p p.frequency := by
  constructor
  · unfold findPatternsInGroup
    split <;> simp
  · intro p hp fd hfd q hq
    unfold findPatternsInGroup at hp
    split at hp <;> rename_i hfold
    case _ p' =>
      have hpp : p = p' := by
        rcases List.mem_singleton.mp hp with h; exact h
      subst hpp
      have hscore := bestFold_inv desc (sortByDate txs) cp FREQUENCY_DAYS
        ((none : Option RecurringPattern), (-1 : ℚ)) (by intro p0 hp0; cases hp0) p hfold
      rw [← hscore]
      exact bestFold_ge_detected desc (sortByDate txs) cp FREQUENCY_DAYS _ fd hfd q hq
    case _ => exact absurd hp (List.not_mem_nil p)

theorem c3_single_best_frequency_witness :
    scorePattern c1pattern (Frequency.monthly, (30 : ℤ)).1
      ≤ scorePattern c1pattern c1pattern.frequency :=
  (c3_single_best_frequency c1key c1txs 1).2 c1pattern
    (by rw [c1_find]; exact List.mem_singleton.mpr rfl)
    (Frequency.monthly, (30 : ℤ)) (by decide)
    c1pattern (by rw [c1_sortByDate]; exact c1_detect_monthly)

/-! ## Upsert keying (C5) -/

/-- Two upsert requests address the same `(account, description,
frequency)` key. -/
def sameKey (a : ℕ) (p : RecurringPattern) (b : ℕ) (q : RecurringPattern) : Prop :=
  a = b ∧ p.description = q.description ∧ p.frequency = q.frequency

instance (a : ℕ) (p : RecurringPattern) (b : ℕ) (q : RecurringPattern) :
    Decidable (sameKey a p b q) := by
  unfold sameKey; infer_instance

lemma rowMatches_rowFromPattern (a b : ℕ) (p q : RecurringPattern) :
    rowMatches b q (rowFromPattern a p) = true ↔ sameKey a p b q := by
  simp [rowMatches, rowFromPattern, sameKey, and_assoc]

lemma rowMatches_self (a : ℕ) (p : RecurringPattern) :
    rowMatches a p (rowFromPattern a p) = true :=
  (rowMatches_rowFromPattern a a p p).mpr ⟨rfl, rfl, rfl⟩

lemma rowMatches_of_matches {a b : ℕ} {p q : RecurringPattern} {r : RecRow}
    (hr : rowMatches a p r = true) :
    rowMatches b q r = rowMatches b q (rowFromPattern a p) := by
  simp only [rowMatches, rowFromPattern, Bool.and_eq_true, beq_iff_eq] at hr ⊢
  obtain ⟨⟨h1, h2⟩, h3⟩ := hr
  simp [h1, h2, h3]

lemma countKey_ext {a b : ℕ} {p q : RecurringPattern}
    (h : ∀ r, rowMatches b q r = rowMatches a p r) (s : List RecRow) :
    countKey s b q = countKey s a p := by
  unfold countKey
  induction s with
  | nil => rfl
  | cons r rest ih =>
    simp only [List.filter_cons, h r]
    cases rowMatches a p r <;> simp [ih]

lemma sameKey_matches_ext {a b : ℕ} {p q : RecurringPattern}
    (h : sameKey a p b q) (r : RecRow) : rowMatches b q r = rowMatches a p r := by
  obtain ⟨h1, h2, h3⟩ := h
  simp only [rowMatches, h1, h2, h3]

lemma countKey_map_invariant {b : ℕ} {q : RecurringPattern} {f : RecRow → RecRow}
    (h : ∀ r, rowMatches b q (f r) = rowMatches b q r) (s : List RecRow) :
    countKey (s.map f) b q = countKey s b q := by
  unfold countKey
  induction s with
  | nil => rfl
  | cons r rest ih =>
    simp only [List.map_cons, List.filter_cons, h r]
    cases rowMatches b q r <;> simp [ih]

lemma countKey_append (s t : List RecRow) (a : ℕ) (p : RecurringPattern) :
    countKey (s ++ t) a p = countKey s a p + countKey t a p := by
  unfold countKey
  rw [List.filter_append, List.length_append]

lemma any_iff_countKey_ne_zero (s : List RecRow) (a : ℕ) (p : RecurringPattern) :
    s.any (rowMatches a p) = true ↔ countKey s a p ≠ 0 := by
  unfold countKey
  induction s with
  | nil => simp
  | cons r rest ih =>
    simp only [List.any_cons, List.filter_cons, Bool.or_eq_true]
    cases hr : rowMatches a p r <;> simp [ih]

lemma countKey_update_same (s : List RecRow) (a : ℕ) (p : RecurringPattern) :
    countKey (update_or_create s a p).1 a p
      = if countKey s a p = 0 then 1 else countKey s a p := by
  unfold update_or_create
  split <;> rename_i hany
  · have hne := (any_iff_countKey_ne_zero s a p).mp hany
    rw [if_neg hne]
    refine countKey_map_invariant ?_ s
    intro r
    cases hr : rowMatches a p r
    · simp [hr]
    · simp [hr, rowMatches_self]
  · have h0 : countKey s a p = 0 := by
      by_contra hne
      exact (by simpa [hany] using (any_iff_countKey_ne_zero s a p).mpr hne)
    simp only [h0, if_pos rfl]
    rw [countKey_append, h0]
    unfold countKey
    simp [List.filter_cons, rowMatches_self]

lemma countKey_update_other {a b : ℕ} {p q : RecurringPattern}
    (h : ¬ sameKey a p b q) (s : List RecRow) :
    countKey (update_or_create s a p).1 b q = countKey s b q := by
  have hfrom : rowMatches b q (rowFromPattern a p) = false := by
    cases hx : rowMatches b q (rowFromPattern a p)
    · rfl
    · exact absurd ((rowMatches_rowFromPattern a b p q).mp hx) h
  unfold update_or_create
  split
  · refine countKey_map_invariant ?_ s
    intro r
    cases hr : rowMatches a p r
    · simp [hr]
    · have hrq : rowMatches b q r = false := (rowMatches_of_matches hr).trans hfrom
      simp [hr, hfrom, hrq]
  · rw [countKey_append]
    unfold countKey
    simp [List.filter_cons, hfrom]

lemma countKey_update_le (s : List RecRow) (a b : ℕ) (p q : RecurringPattern) :
    countKey s b q ≤ countKey (update_or_create s a p).1 b q := by
  by_cases h : sameKey a p b q
  · rw [countKey_ext (sameKey_matches_ext h) s,
      countKey_ext (sameKey_matches_ext h) (update_or_create s a p).1,
      countKey_update_same]
    split <;> omega
  · rw [countKey_update_other h s]

lemma countKey_update_le_one (s : List RecRow) (a b : ℕ) (p q : RecurringPattern)
    (hs : ∀ (b' : ℕ) (q' : RecurringPattern), countKey s b' q' ≤ 1) :
    countKey (update_or_create s a p).1 b q ≤ 1 := by
  by_cases h : sameKey a p b q
  · rw [countKey_ext (sameKey_matches_ext h) (update_or_create s a p).1,
      countKey_update_same]
    have := hs a p
    split <;> omega
  · rw [countKey_update_other h s]
    exact hs b q

lemma upsertAll_nil (s : List RecRow) (a : ℕ) : upsertAll s a [] = s := rfl

lemma upsertAll_cons (s : List RecRow) (a : ℕ) (p : RecurringPattern)
    (ps : List RecurringPattern) :
    upsertAll s a (p :: ps) = upsertAll (update_or_create s a p).1 a ps := rfl

lemma upsertAll_countKey_le (a b : ℕ) (q : RecurringPattern) :
    ∀ (ps : List RecurringPattern) (s : List RecRow),
      countKey s b q ≤ countKey (upsertAll s a ps) b q := by
  intro ps
  induction ps with
  | nil => intro s; exact le_refl _
  | cons p rest ih =>
    intro s
    rw [upsertAll_cons]
    exact le_trans (countKey_update_le s a b p q) (ih _)

lemma upsertAll_at_most_one (a : ℕ) :
    ∀ (ps : List RecurringPattern) (s : List RecRow),
      (∀ (b : ℕ) (q : RecurringPattern), countKey s b q ≤ 1) →
      ∀ (b : ℕ) (q : RecurringPattern), countKey (upsertAll s a ps) b q ≤ 1 := by
  intro ps
  induction ps with
  | nil => intro s hs; exact hs
  | cons p rest ih =>
    intro s hs
    rw [upsertAll_cons]
    exact ih _ (fun b q => countKey_update_le_one s a b p q hs)

lemma upsertAll_present (a : ℕ) :
    ∀ (ps : List RecurringPattern) (s : List RecRow) (p : RecurringPattern),
      p ∈ ps → 1 ≤ countKey (upsertAll s a ps) a p := by
  intro ps
  induction ps with
  | nil => intro s p hp; exact absurd hp (List.not_mem_nil p)
  | cons p0 rest ih =>
    intro s p hp
    rw [upsertAll_cons]
    rcases List.mem_cons.mp hp with heq | hmem
    · subst heq
      refine le_trans ?_ (upsertAll_countKey_le a a p rest _)
      rw [countKey_update_same]
      split <;> omega
    · exact ih _ p hmem

lemma upsertAll_length_of_present (a : ℕ) :
    ∀ (ps : List RecurringPattern) (s : List RecRow),
      (∀ p, p ∈ ps → 1 ≤ countKey s a p) →
      (upsertAll s a ps).length = s.length := by
  intro ps
  induction ps with
  | nil => intro s _; rfl
  | cons p0 rest ih =>
    intro s hs
    rw [upsertAll_cons]
    have hany : s.any (rowMatches a p0) = true := by
      rw [any_iff_countKey_ne_zero]
      have := hs p0 (List.mem_cons_self p0 rest)
      omega
    have hlen : (update_or_create s a p0).1.length = s.length := by
      unfold update_or_create
      rw [if_pos hany]
      exact List.length_map s _
    rw [ih _ ?_, hlen]
    intro p hp
    exact le_trans (hs p (List.mem_cons_of_mem p0 hp)) (countKey_update_le s a a p0 p)

/-- C5: running detection twice on an unchanged transaction set and
upserting after each run leaves exactly one persisted row per
`(account, description, frequency)` key among the detected patterns, and
the second run creates no new row (it updates the existing rows in
place): the store's size is unchanged. The hypothesis states the model's
`unique_together` invariant for the pre-existing store. -/
theorem c5_upsert_idempotent (store : List RecRow) (account : ℕ)
    (ps : List RecurringPattern)
    (huniq : ∀ (b : ℕ) (q : RecurringPattern), countKey store b q ≤ 1) :
    (∀ p, p ∈ ps →
        countKey (upsertAll (upsertAll store account ps) account ps) account p = 1)
      ∧ (upsertAll (upsertAll store account ps) account ps).length
          = (upsertAll store account ps).length := by
  have h1 : ∀ (b : ℕ) (q : RecurringPattern),
      countKey (upsertAll store account ps) b q ≤ 1 :=
    upsertAll_at_most_one account ps store huniq
  have hpresent : ∀ p, p ∈ ps → 1 ≤ countKey (upsertAll store account ps) account p :=
    fun p hp => upsertAll_present account ps store p hp
  constructor
  · intro p hp
    have hle := upsertAll_at_most_one account ps _ h1 account p
    have hge := le_trans (hpresent p hp)
      (upsertAll_countKey_le account account p ps (upsertAll store account ps))
    omega
  · exact upsertAll_length_of_present account ps _ hpresent

theorem c5_upsert_idempotent_witness :
    countKey (upsertAll (upsertAll [] 0 [c1pattern]) 0 [c1pattern]) 0 c1pattern = 1 :=
  (c5_upsert_idempotent [] 0 [c1pattern]
      (by intro b q; simp [countKey])).1 c1pattern (List.mem_singleton.mpr rfl)

/-! ## C6: the 24-hour anomaly deduplication window -/

/-- C6: with no recent matching anomaly on record, a first call to
`create_anomaly_if_new` at `t1` persists and returns the anomaly; a
second call within 24 hours with the same `(user, account, anomaly_type)`
returns `None` and persists nothing, even when the transaction or other
details differ. -/
theorem c6_dedup_window (store : List StoredAnomaly) (t1 t2 : ℚ)
    (a1 a2 : PendingAnomaly)
    (hu : a2.user = a1.user) (hacct : a2.account = a1.account)
    (hty : a2.anomaly_type = a1.anomaly_type)
    (hclean : ∀ e, e ∈ store → e.user = a1.user → e.account = a1.account →
        e.anomaly_type = a1.anomaly_type → e.created_at < t1 - 24)
    (ht : t2 ≤ t1 + 24) :
    (create_anomaly_if_new store t1 a1).1 = some (saveAnomaly a1 t1)
      ∧ create_anomaly_if_new (create_anomaly_if_new store t1 a1).2 t2 a2
          = (none, (create_anomaly_if_new store t1 a1).2) := by
  have hfind : store.find? (fun e =>
      e.user == a1.user && e.account == a1.account
        && e.anomaly_type == a1.anomaly_type && decide (t1 - 24 ≤ e.created_at)) = none := by
    rw [List.find?_eq_none]
    intro e he hp
    simp only [Bool.and_eq_true, beq_iff_eq, decide_eq_true_eq] at hp
    obtain ⟨⟨⟨h1, h2⟩, h3⟩, h4⟩ := hp
    exact absurd h4 (not_le.mpr (hclean e he h1 h2 h3))
  have hstep1 : create_anomaly_if_new store t1 a1
      = (some (saveAnomaly a1 t1), saveAnomaly a1 t1 :: store) := by
    unfold create_anomaly_if_new
    rw [hfind]
  have hpred : ((saveAnomaly a1 t1).user == a2.user
        && (saveAnomaly a1 t1).account == a2.account
        && (saveAnomaly a1 t1).anomaly_type == a2.anomaly_type
        && decide (t2 - 24 ≤ (saveAnomaly a1 t1).created_at)) = true := by
    simp only [saveAnomaly, Bool.and_eq_true, beq_iff_eq, decide_eq_true_eq]
    refine ⟨⟨⟨hu.symm, hacct.symm⟩, hty.symm⟩, by linarith⟩
  have hstep2 : create_anomaly_if_new (saveAnomaly a1 t1 :: store) t2 a2
      = (none, saveAnomaly a1 t1 :: store) := by
    unfold create_anomaly_if_new
    simp only [List.find?, hpred]
  refine ⟨by rw [hstep1], ?_⟩
  rw [hstep1]
  exact hstep2

theorem c6_dedup_window_witness :
    (create_anomaly_if_new [] 0 ⟨1, 2, .unusual_amount, some 10, 60⟩).1
        = some (saveAnomaly ⟨1, 2, .unusual_amount, some 10, 60⟩ 0)
      ∧ create_anomaly_if_new
          (create_anomaly_if_new [] 0 ⟨1, 2, .unusual_amount, some 10, 60⟩).2 12
          ⟨1, 2, .unusual_amount, some 11, 75⟩
        = (none, (create_anomaly_if_new [] 0 ⟨1, 2, .unusual_amount, some 10, 60⟩).2) :=
  c6_dedup_window [] 0 12 ⟨1, 2, .unusual_amount, some 10, 60⟩
    ⟨1, 2, .unusual_amount, some 11, 75⟩ rfl rfl rfl
    (by intro e he; exact absurd he (List.not_mem_nil e)) (by norm_num)

/-! ## C7: the zero-stdev fallback of the unusual-amount detector -/

/-- C7: with historical amounts `[100, 100, 100, 100]` (sample stdev 0),
a new amount of 160 (60% deviation) produces an anomaly of score 60 and
severity warning, a new amount of 105 (5% deviation) produces none, and
in general the fallback flags exactly the amounts deviating from the
constant value by strictly more than 50% of it — for every minimum-score
preference. -/
theorem c7_zero_stdev_fallback (minScore c : ℚ) :
    detectUnusualAmount [100, 100, 100, 100] 160 minScore
        = some (.constantDev 60 .warning)
      ∧ detectUnusualAmount [100, 100, 100, 100] 105 minScore = none
      ∧ (detectUnusualAmount [100, 100, 100, 100] c minScore ≠ none
          ↔ 50 < pyAbs (c - 100)) := by
  have hmean : listMean [100, 100, 100, 100] = 100 := by
    norm_num [listMean]
  have hvar : sampleVariance [100, 100, 100, 100] = 0 := by
    norm_num [sampleVariance, listMean]
  have habs : pyAbs (100 : ℚ) * (1/2) = 50 := by norm_num [pyAbs]
  have hbase : ∀ x : ℚ, detectUnusualAmount [100, 100, 100, 100] x minScore
      = if 50 < pyAbs (x - 100) then some (.constantDev 60 .warning) else none := by
    intro x
    unfold detectUnusualAmount
    rw [if_neg (by norm_num), if_pos hvar, hmean, habs]
  refine ⟨?_, ?_, ?_⟩
  · rw [hbase]
    norm_num [pyAbs]
  · rw [hbase]
    norm_num [pyAbs]
  · rw [hbase]
    split <;> simp_all

/-! ## C9: the spending-spike trigger -/

lemma firstDedup_subset {α : Type} [DecidableEq α] :
    ∀ (l seen : List α) (x : α), x ∈ firstDedup seen l → x ∈ l := by
  intro l
  induction l with
  | nil => intro seen x hx; exact absurd hx (List.not_mem_nil x)
  | cons k rest ih =>
    intro seen x hx
    unfold firstDedup at hx
    split at hx
    · exact List.mem_cons_of_mem k (ih seen x hx)
    · rcases List.mem_cons.mp hx with heq | hmem
      · exact heq ▸ List.mem_cons_self k rest
      · exact List.mem_cons_of_mem k (ih _ x hmem)

lemma monthlyBuckets_ne_nil {histMonths : List ℕ} (h : histMonths ≠ []) :
    monthlyBuckets histMonths ≠ [] := by
  cases histMonths with
  | nil => exact absurd rfl h
  | cons m rest =>
    unfold monthlyBuckets monthsOf firstDedup
    rw [if_neg (List.not_mem_nil m)]
    simp

lemma length_le_sum_of_one_le :
    ∀ l : List ℕ, (∀ x, x ∈ l → 1 ≤ x) → l.length ≤ l.sum := by
  intro l
  induction l with
  | nil => intro _; exact le_refl 0
  | cons x rest ih =>
    intro h
    have hx := h x (List.mem_cons_self x rest)
    have hrest := ih (fun y hy => h y (List.mem_cons_of_mem x hy))
    simp only [List.length_cons, List.sum_cons]
    omega

lemma one_le_avgMonthly {histMonths : List ℕ} (h : histMonths ≠ []) :
    1 ≤ avgMonthlyOf histMonths := by
  unfold avgMonthlyOf
  have hne := monthlyBuckets_ne_nil h
  have hlen : 0 < (monthlyBuckets histMonths).length := List.length_pos.mpr hne
  rw [le_div_iff₀ (by exact_mod_cast hlen), one_mul]
  have hsum : (monthlyBuckets histMonths).length ≤ (monthlyBuckets histMonths).sum := by
    refine length_le_sum_of_one_le _ ?_
    intro x hx
    obtain ⟨m, hm, hmn⟩ := List.mem_map.mp (by
      unfold monthlyBuckets at hx
      exact hx)
    have hmem : m ∈ histMonths := firstDedup_subset histMonths [] m hm
    have hcount : 0 < histMonths.count m := List.count_pos_iff.mpr hmem
    omega
  exact_mod_cast hsum

/-- The average the claim describes, following the spec's words rather
than the source: the mean per-month transaction count of the trailing
6 months excluding the current month. Each historical transaction
contributes 1 to its month's count, so the sum of the six monthly counts
is the number of historical transactions and the claimed average is that
number divided by 6. Compare `avgMonthlyOf`, which divides by the number
of months that have at least one transaction, as the code does. -/
def claimedAvgMonthly (histMonths : List ℕ) : ℚ := (histMonths.length : ℚ) / 6

/-- C9 counterexample: with the trailing window holding 4 expense
transactions all in one month, a current-month count of 3 and multiplier
2, the claimed trigger fires (claimed average 4/6, threshold 4/3 < 3)
but the detector does not flag (its average is 4, threshold 8), so the
detector does not flag "exactly when" the current count exceeds the
trailing-6-month mean times the multiplier. -/
theorem c9_claimed_trigger_counterexample :
    claimedAvgMonthly [1, 1, 1, 1] * 2 < ((3 : ℕ) : ℚ)
      ∧ detect_spending_spike [1, 1, 1, 1] 3 2 = none := by
  constructor
  · norm_num [claimedAvgMonthly]
  · have hb : monthlyBuckets [1, 1, 1, 1] = [4] := by decide
    have hav : avgMonthlyOf [1, 1, 1, 1] = 4 := by
      unfold avgMonthlyOf
      rw [hb]
      norm_num
    unfold detect_spending_spike
    rw [hb, hav]
    norm_num

/-- C9 (amended): the spending-spike detector flags a category exactly when the
current month's expense-transaction count exceeds the historical monthly
average times the user's `spending_spike_multiplier`, and the emitted
anomaly scores `min(100, 50 + multiplier·20)` — `multiplier` being the
ratio of the current count to the average — with severity warning. -/
theorem c9_spending_spike_trigger (histMonths : List ℕ) (currentCount : ℕ)
    (spikeMultiplier : ℚ) (h : histMonths ≠ []) :
    ((detect_spending_spike histMonths currentCount spikeMultiplier ≠ none)
        ↔ avgMonthlyOf histMonths * spikeMultiplier < (currentCount : ℚ))
      ∧ ∀ r, detect_spending_spike histMonths currentCount spikeMultiplier = some r →
          r = (pyMin 100 (50 + ((currentCount : ℚ) / avgMonthlyOf histMonths) * 20),
                .warning) := by
  have hb := monthlyBuckets_ne_nil h
  have hpos : 0 < avgMonthlyOf histMonths :=
    lt_of_lt_of_le zero_lt_one (one_le_avgMonthly h)
  unfold detect_spending_spike
  rw [if_neg hb, if_pos hpos]
  constructor
  · split <;> rename_i hc <;> simp [hc]
  · intro r hr
    split at hr
    · exact ((Option.some.injEq _ _).mp hr).symm
    · exact Option.noConfusion hr

theorem c9_spending_spike_trigger_witness :
    (detect_spending_spike [1, 1, 2] 5 2 ≠ none)
      ↔ avgMonthlyOf [1, 1, 2] * 2 < ((5 : ℕ) : ℚ) :=
  (c9_spending_spike_trigger [1, 1, 2] 5 2 (by decide)).1

/-! ## C10: the zero-stdev branch ignores the minimum-score preference -/

/-- C10: in the `stdev == 0` branch the anomaly is emitted with the fixed
score 60 and severity warning for every sensitivity — including low,
whose minimum score is 90 — because the preference-derived minimum score
is only consulted in the `stdev > 0` Z-score branch, where it does
suppress anomalies scoring below it (shown here for z between 2 and 4
under the low sensitivity). -/
theorem c10_zero_stdev_ignores_min_score (hist : List ℚ) (current : ℚ)
    (s : Sensitivity) :
    (2 ≤ hist.length → sampleVariance hist = 0 →
        pyAbs (listMean hist) * (1/2) < pyAbs (current - listMean hist) →
        detectUnusualAmount hist current (get_minimum_score_for_severity s)
          = some (.constantDev 60 .warning))
      ∧ get_minimum_score_for_severity .low = 90
      ∧ (2 ≤ hist.length → sampleVariance hist ≠ 0 →
          4 < zsqOf hist current → zsqOf hist current < 16 →
          detectUnusualAmount hist current (get_minimum_score_for_severity .low)
            = none) := by
  refine ⟨?_, by norm_num [get_minimum_score_for_severity], ?_⟩
  · intro hlen hvar hdev
    unfold detectUnusualAmount
    rw [if_neg (not_lt.mpr hlen), if_pos hvar, if_pos hdev]
  · intro hlen hvar h4 h16
    unfold detectUnusualAmount
    rw [if_neg (not_lt.mpr hlen), if_neg hvar, if_pos h4, if_pos ?_]
    refine Or.inr ⟨by norm_num [get_minimum_score_for_severity], ?_⟩
    have h90 : get_minimum_score_for_severity .low = 90 := by
      norm_num [get_minimum_score_for_severity]
    rw [h90]
    nlinarith

theorem c10_zero_stdev_ignores_min_score_witness :
    detectUnusualAmount [100, 100] 160 (get_minimum_score_for_severity .low)
        = some (.constantDev 60 .warning)
      ∧ detectUnusualAmount [100, 110] 130 (get_minimum_score_for_severity .low)
        = none :=
  ⟨(c10_zero_stdev_ignores_min_score [100, 100] 160 .low).1 (by norm_num)
      (by norm_num [sampleVariance, listMean]) (by norm_num [pyAbs, listMean]),
   (c10_zero_stdev_ignores_min_score [100, 110] 130 .low).2.2 (by norm_num)
      (by norm_num [sampleVariance, listMean])
      (by norm_num [zsqOf, sampleVariance, listMean])
      (by norm_num [zsqOf, sampleVariance, listMean])⟩

end Finance
